import Mathlib

/-!
Verification development for the PrincessDainaBot moderation core
(src/main.py): warn ledger and escalation, filter table, settings
store, spam rate tracker, per-message moderation procedure, and the
welcome/goodbye template renderer.

Strings are modelled as lists of characters (`LC`), message
timestamps as rationals (Python floats from time.time() enter only
through additions and comparisons, which the rationals reproduce
exactly on the inputs of interest), and the SQLite tables as pure
key-value structures.  Outbound Telegram calls (delete, send,
restrict) are modelled as emitted actions.
-/

set_option linter.unusedVariables false

namespace PrincessDaina

abbrev LC := List Char

/-! ## Infraction ledger (warns table; get_warns / set_warns / reset_warns) -/

/-- Warns table keyed by (chat_id, user_id); a missing row reads as 0,
matching get_warns returning 0 when no row exists. -/
def Ledger := Int → Int → Nat

/-- Embeds get_warns: SELECT count ... , 0 when absent. -/
def get_warns (l : Ledger) (chatId userId : Int) : Nat := l chatId userId

/-- Embeds set_warns: upsert of the count for one (chat_id, user_id) key. -/
def set_warns (l : Ledger) (chatId userId : Int) (count : Nat) : Ledger :=
  fun c u => if c = chatId ∧ u = userId then count else l c u

/-- Embeds reset_warns: DELETE the row; a deleted row reads back as 0. -/
def reset_warns (l : Ledger) (chatId userId : Int) : Ledger :=
  fun c u => if c = chatId ∧ u = userId then 0 else l c u

/-- Result of one /warn invocation: the updated ledger, the count after the
increment, and whether the 24-hour restrict (auto-mute) call was issued. -/
structure WarnResult where
  ledger : Ledger
  newCount : Nat
  muteIssued : Bool

/-- Embeds the state-changing part of warn_cmd:
count = get_warns + 1; set_warns; the restrict call is attempted
exactly when the if-branch `count >= 3` is taken. -/
def warn_cmd (l : Ledger) (chatId target : Int) : WarnResult :=
  let count := get_warns l chatId target + 1
  { ledger := set_warns l chatId target count
    newCount := count
    muteIssued := decide (3 ≤ count) }

/-- Admin-invoked operations that touch the warns table. -/
inductive WarnOp where
  | warn (chatId userId : Int)
  | reset (chatId userId : Int)

/-- Boolean discriminator for warn operations. -/
def WarnOp.isWarn : WarnOp → Bool
  | .warn _ _ => true
  | .reset _ _ => false

/-- Effect of one operation on the ledger. -/
def applyWarnOp (l : Ledger) : WarnOp → Ledger
  | .warn c u => (warn_cmd l c u).ledger
  | .reset c u => reset_warns l c u

/-- The ledger used as the starting point in concrete scenarios. -/
def emptyLedger : Ledger := fun _ _ => 0

theorem get_warns_warn_cmd_le (l : Ledger) (c u c' u' : Int) :
    get_warns l c u ≤ get_warns (warn_cmd l c' u' |>.ledger) c u := by
  unfold warn_cmd set_warns get_warns
  by_cases h : c = c' ∧ u = u'
  · simp [h.1, h.2]
  · simp [h]

/-- Claim C1 counterexample: starting from a ledger where the target already
has 3 warnings, a further /warn raises the count to 4 and the code still
issues the 24-hour mute action (count >= 3 retriggers), contradicting the
claim that a warn yielding a count of 4 or more does not issue another
mute. -/
theorem warn_fourth_warn_still_mutes :
    (warn_cmd (set_warns emptyLedger 5 7 3) 5 7).newCount = 4 ∧
    (warn_cmd (set_warns emptyLedger 5 7 3) 5 7).muteIssued = true := by
  constructor <;> rfl

/-- Claim C1 (amended): the automatic 24-hour mute action is issued on every
warn whose resulting count is at least 3, i.e. exactly when the prior count
was at least 2; every warn increments the count by exactly one. -/
theorem warn_mute_iff_new_count_ge_three (l : Ledger) (c u : Int) :
    (warn_cmd l c u).newCount = get_warns l c u + 1 ∧
    ((warn_cmd l c u).muteIssued = true ↔ 2 ≤ get_warns l c u) := by
  refine ⟨rfl, ?_⟩
  simp only [warn_cmd, decide_eq_true_eq]
  omega

/-- Witness for claim C1 (amended) at a concrete ledger. -/
theorem warn_mute_iff_new_count_ge_three_witness :
    (warn_cmd emptyLedger 1 2).newCount = get_warns emptyLedger 1 2 + 1 ∧
    ((warn_cmd emptyLedger 1 2).muteIssued = true ↔ 2 ≤ get_warns emptyLedger 1 2) :=
  warn_mute_iff_new_count_ge_three emptyLedger 1 2

/-- Claim C7: across any sequence of warn operations (at any keys) the count
at a fixed (group, user) key never decreases, and a reset operation sets the
count read back at its key to exactly 0. -/
theorem warns_monotone_until_reset (ops : List WarnOp) (l : Ledger) (c u : Int)
    (hops : ∀ op ∈ ops, op.isWarn = true) :
    get_warns l c u ≤ get_warns (ops.foldl applyWarnOp l) c u ∧
    (∀ (l' : Ledger) (c' u' : Int),
      get_warns (applyWarnOp l' (WarnOp.reset c' u')) c' u' = 0) := by
  constructor
  · induction ops generalizing l with
    | nil => simp
    | cons op rest ih =>
      have hop := hops op (List.mem_cons_self op rest)
      have hrest : ∀ op ∈ rest, op.isWarn = true := fun o ho =>
        hops o (List.mem_cons_of_mem op ho)
      cases op with
      | warn c' u' =>
        calc get_warns l c u ≤ get_warns (warn_cmd l c' u' |>.ledger) c u :=
              get_warns_warn_cmd_le l c u c' u'
          _ ≤ _ := by
              simpa [applyWarnOp] using ih (warn_cmd l c' u' |>.ledger) hrest
      | reset c' u' => simp [WarnOp.isWarn] at hop
  · intro l' c' u'
    simp [applyWarnOp, reset_warns, get_warns]

/-- Witness for claim C7 at a concrete run: two warns on key (1, 2). -/
theorem warns_monotone_until_reset_witness :
    (∀ op ∈ [WarnOp.warn 1 2, WarnOp.warn 1 2], op.isWarn = true) ∧
    (get_warns emptyLedger 1 2 ≤
      get_warns ([WarnOp.warn 1 2, WarnOp.warn 1 2].foldl applyWarnOp emptyLedger) 1 2 ∧
    (∀ (l' : Ledger) (c' u' : Int),
      get_warns (applyWarnOp l' (WarnOp.reset c' u')) c' u' = 0)) :=
  ⟨by decide,
   warns_monotone_until_reset [WarnOp.warn 1 2, WarnOp.warn 1 2] emptyLedger 1 2
     (by decide)⟩

/-! ## Spam rate tracker (spam_tracker deque plus the anti-spam arithmetic
of moderate_messages) -/

/-- Embeds SPAM_WINDOW_SECONDS = 6. -/
def SPAM_WINDOW_SECONDS : ℚ := 6

/-- Embeds SPAM_MAX_MSGS = 6. -/
def SPAM_MAX_MSGS : Nat := 6

/-- Deque bound: the tracker deques are created with maxlen SPAM_MAX_MSGS + 3. -/
def TRACKER_MAXLEN : Nat := SPAM_MAX_MSGS + 3

/-- The most recent TRACKER_MAXLEN entries of a timestamp list; a deque with
maxlen keeps exactly this suffix. -/
def lastWindow (l : List ℚ) : List ℚ := l.drop (l.length - TRACKER_MAXLEN)

/-- Embeds dq.append(now) on a deque with maxlen TRACKER_MAXLEN: the oldest
entry is discarded once the bound is exceeded. -/
def dequeAppend (dq : List ℚ) (t : ℚ) : List ℚ := lastWindow (dq ++ [t])

/-- Embeds `recent = [t for t in dq if now - t <= SPAM_WINDOW_SECONDS]`,
counting the entries of the window that are at most 6 seconds old. -/
def countRecent (dq : List ℚ) (now : ℚ) : Nat :=
  (dq.filter (fun t => decide (now - t ≤ SPAM_WINDOW_SECONDS))).length

/-- One anti-spam evaluation: append the timestamp, then report whether the
recent count has reached SPAM_MAX_MSGS (`len(recent) >= SPAM_MAX_MSGS`). -/
def spamStep (dq : List ℚ) (now : ℚ) : List ℚ × Bool :=
  let dq' := dequeAppend dq now
  (dq', decide (SPAM_MAX_MSGS ≤ countRecent dq' now))

/-- Evaluates spamStep over a sequence of message timestamps, returning the
final deque and the over-limit flag of each message in order. -/
def runSpam (dq : List ℚ) : List ℚ → List ℚ × List Bool
  | [] => (dq, [])
  | t :: ts =>
    let s := spamStep dq t
    let r := runSpam s.1 ts
    (r.1, s.2 :: r.2)

theorem lastWindow_of_le (l : List ℚ) (h : l.length ≤ TRACKER_MAXLEN) :
    lastWindow l = l := by
  unfold lastWindow
  rw [Nat.sub_eq_zero_of_le h, List.drop_zero]

theorem lastWindow_length_le (l : List ℚ) : (lastWindow l).length ≤ TRACKER_MAXLEN := by
  unfold lastWindow
  rw [List.length_drop]
  omega

theorem dequeAppend_lastWindow (l : List ℚ) (t : ℚ) :
    dequeAppend (lastWindow l) t = lastWindow (l ++ [t]) := by
  unfold dequeAppend lastWindow
  rcases le_or_lt l.length TRACKER_MAXLEN with h | h
  · rw [Nat.sub_eq_zero_of_le h, List.drop_zero]
  · have hlen : (List.drop (l.length - TRACKER_MAXLEN) l).length = TRACKER_MAXLEN := by
      rw [List.length_drop]; omega
    have h2 : (List.drop (l.length - TRACKER_MAXLEN) l ++ [t]).length - TRACKER_MAXLEN = 1 := by
      rw [List.length_append, hlen]; simp
    have h3 : (l ++ [t]).length - TRACKER_MAXLEN = (l.length - TRACKER_MAXLEN) + 1 := by
      rw [List.length_append]; simp only [List.length_cons, List.length_nil]; omega
    have hone : (1 : Nat) ≤ (List.drop (l.length - TRACKER_MAXLEN) l).length := by
      rw [hlen]; decide
    have hkk : l.length - TRACKER_MAXLEN + 1 ≤ l.length := by omega
    rw [h2, h3, List.drop_append_of_le_length hone, List.drop_append_of_le_length hkk,
      List.drop_drop]

theorem runSpam_deque (ts : List ℚ) (l : List ℚ) :
    (runSpam (lastWindow l) ts).1 = lastWindow (l ++ ts) := by
  induction ts generalizing l with
  | nil => simp [runSpam]
  | cons t ts ih =>
    show (runSpam (dequeAppend (lastWindow l) t) ts).1 = _
    rw [dequeAppend_lastWindow, ih (l ++ [t]), List.append_assoc]
    rfl

theorem runSpam_append (as bs : List ℚ) (dq : List ℚ) :
    (runSpam dq (as ++ bs)).1 = (runSpam (runSpam dq as).1 bs).1 ∧
    (runSpam dq (as ++ bs)).2 =
      (runSpam dq as).2 ++ (runSpam (runSpam dq as).1 bs).2 := by
  induction as generalizing dq with
  | nil => simp [runSpam]
  | cons a as ih =>
    have h := ih (spamStep dq a).1
    refine ⟨h.1, ?_⟩
    show (spamStep dq a).2 :: (runSpam (spamStep dq a).1 (as ++ bs)).2 = _
    rw [h.2]
    rfl

theorem le_countRecent_suffix (dq0 ts : List ℚ) (now : ℚ)
    (h : ∀ x ∈ ts, now - x ≤ SPAM_WINDOW_SECONDS) :
    min TRACKER_MAXLEN ts.length ≤ countRecent (lastWindow (dq0 ++ ts)) now := by
  unfold lastWindow countRecent
  set k := (dq0 ++ ts).length - TRACKER_MAXLEN with hk
  rw [List.length_append] at hk
  have hfil : ts.filter (fun t => decide (now - t ≤ SPAM_WINDOW_SECONDS)) = ts :=
    List.filter_eq_self.mpr (fun a ha => decide_eq_true (h a ha))
  rcases le_or_lt k dq0.length with hle | hlt
  · rw [List.drop_append_of_le_length hle, List.filter_append, List.length_append, hfil]
    omega
  · have : k = dq0.length + (k - dq0.length) := by omega
    rw [this, List.drop_append]
    have hsub : ∀ x ∈ ts.drop (k - dq0.length), now - x ≤ SPAM_WINDOW_SECONDS :=
      fun x hx => h x (List.drop_subset _ _ hx)
    have : (ts.drop (k - dq0.length)).filter
        (fun t => decide (now - t ≤ SPAM_WINDOW_SECONDS)) = ts.drop (k - dq0.length) :=
      List.filter_eq_self.mpr (fun a ha => decide_eq_true (hsub a ha))
    rw [this, List.length_drop]
    omega

theorem runSpam_last_flag_true (dq0 : List ℚ) (ts : List ℚ) (tl : ℚ)
    (hdq : dq0.length ≤ TRACKER_MAXLEN)
    (hlen : SPAM_MAX_MSGS ≤ ts.length + 1)
    (hwin : ∀ t ∈ ts ++ [tl], tl - t ≤ SPAM_WINDOW_SECONDS) :
    (runSpam dq0 (ts ++ [tl])).2.getLast? = some true := by
  have happ := runSpam_append ts [tl] dq0
  have hdq0 : lastWindow dq0 = dq0 := lastWindow_of_le dq0 hdq
  have hdqA : (runSpam dq0 ts).1 = lastWindow (dq0 ++ ts) := by
    conv_lhs => rw [← hdq0]
    exact runSpam_deque ts dq0
  have hflag : (runSpam (runSpam dq0 ts).1 [tl]).2 =
      [decide (SPAM_MAX_MSGS ≤ countRecent (dequeAppend (runSpam dq0 ts).1 tl) tl)] := rfl
  have hcount : SPAM_MAX_MSGS ≤ countRecent (dequeAppend (runSpam dq0 ts).1 tl) tl := by
    rw [hdqA, dequeAppend_lastWindow, List.append_assoc]
    have := le_countRecent_suffix dq0 (ts ++ [tl]) tl hwin
    have h9 : SPAM_MAX_MSGS ≤ TRACKER_MAXLEN := by decide
    rw [List.length_append] at this
    simp only [List.length_cons, List.length_nil] at this
    omega
  rw [happ.2, hflag, decide_eq_true hcount, List.getLast?_concat]

theorem filter_recent_le_one (dq : List ℚ) (t : ℚ)
    (hpw : dq.Pairwise (fun a b => a + 6 ≤ b))
    (hall : ∀ x ∈ dq, x + 6 ≤ t) :
    (dq.filter (fun x => decide (t - x ≤ SPAM_WINDOW_SECONDS))).length ≤ 1 := by
  induction dq with
  | nil => simp
  | cons h tl ih =>
    rw [List.pairwise_cons] at hpw
    by_cases hc : t - h ≤ SPAM_WINDOW_SECONDS
    · have htl : tl = [] := by
        rw [List.eq_nil_iff_forall_not_mem]
        intro y hy
        have h1 : h + 6 ≤ y := hpw.1 y hy
        have h2 : y + 6 ≤ t := hall y (List.mem_cons_of_mem _ hy)
        have : SPAM_WINDOW_SECONDS = (6 : ℚ) := rfl
        rw [this] at hc
        linarith
      subst htl
      simpa using List.length_filter_le (fun x => decide (t - x ≤ SPAM_WINDOW_SECONDS)) [h]
    · rw [List.filter_cons_of_neg (by simpa using hc)]
      exact ih hpw.2 (fun x hx => hall x (List.mem_cons_of_mem _ hx))

theorem runSpam_flags_false (ts : List ℚ) (dq : List ℚ)
    (hdq : dq.Pairwise (fun a b => a + 6 ≤ b))
    (hcross : ∀ x ∈ dq, ∀ t ∈ ts, x + 6 ≤ t)
    (hts : ts.Pairwise (fun a b => a + 6 ≤ b)) :
    ∀ f ∈ (runSpam dq ts).2, f = false := by
  induction ts generalizing dq with
  | nil => simp [runSpam]
  | cons t ts ih =>
    rw [List.pairwise_cons] at hts
    have hallt : ∀ x ∈ dq, x + 6 ≤ t :=
      fun x hx => hcross x hx t (List.mem_cons_self t ts)
    have hcount : countRecent (dequeAppend dq t) t ≤ 2 := by
      have hsub : countRecent (dequeAppend dq t) t ≤ countRecent (dq ++ [t]) t := by
        unfold countRecent
        exact ((List.drop_sublist _ _).filter _).length_le
      have happ : countRecent (dq ++ [t]) t =
          (dq.filter (fun x => decide (t - x ≤ SPAM_WINDOW_SECONDS))).length + 1 := by
        unfold countRecent
        rw [List.filter_append]
        have : SPAM_WINDOW_SECONDS = (6 : ℚ) := rfl
        simp [this]
      have h1 := filter_recent_le_one dq t hdq hallt
      omega
    have hflag : (spamStep dq t).2 = false := by
      simp only [spamStep, decide_eq_false_iff_not]
      have : SPAM_MAX_MSGS = 6 := rfl
      omega
    intro f hf
    simp only [runSpam] at hf
    rcases List.mem_cons.mp hf with rfl | hf
    · exact hflag
    · have hpw' : (dequeAppend dq t).Pairwise (fun a b => a + 6 ≤ b) := by
        refine List.Pairwise.sublist (List.drop_sublist _ _) ?_
        rw [List.pairwise_append]
        exact ⟨hdq, List.pairwise_singleton _ _, fun x hx y hy => by
          rw [List.mem_singleton] at hy; subst hy; exact hallt x hx⟩
      have hcross' : ∀ x ∈ dequeAppend dq t, ∀ t' ∈ ts, x + 6 ≤ t' := by
        intro x hx t' ht'
        have hx' : x ∈ dq ++ [t] := List.drop_subset _ _ hx
        rcases List.mem_append.mp hx' with hx' | hx'
        · exact hcross x hx' t' (List.mem_cons_of_mem _ ht')
        · rw [List.mem_singleton] at hx'; subst hx'
          exact hts.1 t' ht'
      exact ih (dequeAppend dq t) hpw' hcross' hts.2 f hf

theorem chain_six_all (t : ℚ) (ts : List ℚ)
    (h : List.Chain (fun a b : ℚ => a + 6 ≤ b) t ts) : ∀ b ∈ ts, t + 6 ≤ b := by
  induction ts generalizing t with
  | nil => simp
  | cons b ts ih =>
    rw [List.chain_cons] at h
    intro x hx
    rcases List.mem_cons.mp hx with rfl | hx
    · exact h.1
    · have := ih b h.2 x hx
      linarith [h.1]

theorem chain_six_pairwise (ts : List ℚ)
    (h : List.Chain' (fun a b : ℚ => a + 6 ≤ b) ts) :
    ts.Pairwise (fun a b : ℚ => a + 6 ≤ b) := by
  induction ts with
  | nil => simp
  | cons t ts ih =>
    have h' : List.Chain (fun a b : ℚ => a + 6 ≤ b) t ts := h
    refine List.pairwise_cons.mpr ⟨chain_six_all t ts h', ih ?_⟩
    exact List.Chain'.tail h

/-! ## Filter table (filters table; add_filter / remove_filter / match_filter)

The filters SQL table is keyed by (chat_id, key); one chat's rows are
modelled as a list of (key, reply) pairs in insertion order, with the
upsert updating in place.  Python str.lower / str.strip act on ASCII
text here; Char.toLower and Char.isWhitespace reproduce them on the
ASCII inputs this bot handles. -/

/-- Embeds text.lower(). -/
def pyLower (s : LC) : LC := s.map Char.toLower

/-- Embeds text.strip(): leading and trailing whitespace removed. -/
def pyStrip (s : LC) : LC :=
  ((s.dropWhile Char.isWhitespace).reverse.dropWhile Char.isWhitespace).reverse

/-- Word character in the sense of the regex class used around filter keys. -/
def isWordChar (c : Char) : Bool := c.isAlphanum || c = '_'

/-- Character of s at a possibly negative index, none when out of range. -/
def charAt (s : LC) (i : Int) : Option Char :=
  if i < 0 then none else s.get? i.toNat

/-- Word-boundary test between two adjacent positions: exactly one side is a
word character (a missing side counts as non-word). -/
def isBoundary (left right : Option Char) : Bool :=
  ((left.map isWordChar).getD false) != ((right.map isWordChar).getD false)

/-- Whether the escaped key k occurs in t starting at index i with a word
boundary on each side, as the search for the pattern built from the key by
surrounding it with boundary assertions requires. -/
def wordMatchAt (k t : LC) (i : Nat) : Bool :=
  ((t.drop i).take k.length == k) &&
  isBoundary (charAt t ((i : Int) - 1)) (charAt t (i : Int)) &&
  isBoundary (charAt t ((i : Int) + k.length - 1)) (charAt t ((i : Int) + k.length))

/-- Embeds the regex search for the boundary-delimited escaped key over the
whole message text. -/
def word_boundary_search (k t : LC) : Bool :=
  (List.range (t.length + 1)).any (wordMatchAt k t)

/-- The per-row test of match_filter: whole-word occurrence of the lowered
stored key, or the stripped message text exactly equal to it. -/
def filter_row_test (storedKey : LC) (t : LC) : Bool :=
  word_boundary_search (pyLower storedKey) t || pyStrip t == pyLower storedKey

/-- Embeds match_filter: empty text matches nothing; otherwise the rows are
scanned in order and the first row whose test succeeds supplies the reply. -/
def match_filter (rows : List (LC × LC)) (text : LC) : Option LC :=
  if text = [] then none
  else
    let t := pyLower text
    rows.findSome? (fun kr => if filter_row_test kr.1 t then some kr.2 else none)

/-- Key normalisation applied by add_filter and remove_filter:
key.strip().lower(). -/
def normalize_key (k : LC) : LC := pyLower (pyStrip k)

/-- Embeds add_filter: upsert on the (chat_id, key) primary key — an existing
row gets its reply overwritten in place, otherwise a row is appended. -/
def add_filter (rows : List (LC × LC)) (key reply : LC) : List (LC × LC) :=
  let k := normalize_key key
  if rows.any (fun kr => kr.1 == k) then
    rows.map (fun kr => if kr.1 == k then (k, reply) else kr)
  else rows ++ [(k, reply)]

/-- Embeds remove_filter: deletes the row for the normalised key, reporting
whether one existed. -/
def remove_filter (rows : List (LC × LC)) (key : LC) : List (LC × LC) × Bool :=
  let k := normalize_key key
  (rows.filter (fun kr => !(kr.1 == k)), rows.any (fun kr => kr.1 == k))

theorem map_update_id (rows : List (LC × LC)) (k rep : LC)
    (h : ∀ kr ∈ rows, (kr.1 == k) = false) :
    rows.map (fun p => if p.1 == k then (k, rep) else p) = rows := by
  induction rows with
  | nil => rfl
  | cons r rs ih =>
    rw [List.map_cons, ih (fun kr hkr => h kr (List.mem_cons_of_mem r hkr)),
      h r (List.mem_cons_self r rs)]
    simp

theorem map_update_idem (rows : List (LC × LC)) (k rep : LC) :
    (rows.map (fun p => if p.1 == k then (k, rep) else p)).map
      (fun p => if p.1 == k then (k, rep) else p) =
    rows.map (fun p => if p.1 == k then (k, rep) else p) := by
  induction rows with
  | nil => rfl
  | cons r rs ih =>
    rw [List.map_cons, List.map_cons, ih]
    by_cases hk : r.1 == k
    · simp [hk]
    · simp [hk]

theorem add_filter_idem (rows : List (LC × LC)) (key reply : LC) :
    add_filter (add_filter rows key reply) key reply = add_filter rows key reply := by
  unfold add_filter
  by_cases h : rows.any (fun kr => kr.1 == normalize_key key)
  · rw [if_pos h]
    have hany : ((rows.map (fun p =>
        if p.1 == normalize_key key then (normalize_key key, reply) else p)).any
        (fun kr => kr.1 == normalize_key key)) = true := by
      rw [List.any_eq_true] at h ⊢
      obtain ⟨kr, hmem, hk⟩ := h
      exact ⟨(normalize_key key, reply),
        List.mem_map.mpr ⟨kr, hmem, by simp [hk]⟩, by simp⟩
    rw [if_pos hany]
    exact map_update_idem rows _ _
  · rw [if_neg h]
    have hall : ∀ kr ∈ rows, (kr.1 == normalize_key key) = false := by
      intro kr hkr
      by_contra hne
      rw [Bool.not_eq_false] at hne
      exact h (List.any_eq_true.mpr ⟨kr, hkr, hne⟩)
    have hany : ((rows ++ [(normalize_key key, reply)]).any
        (fun kr => kr.1 == normalize_key key)) = true := by
      rw [List.any_append]
      simp
    rw [if_pos hany, List.map_append, map_update_id rows _ _ hall]
    simp

theorem countP_key_le_one (rows : List (LC × LC)) (k : LC)
    (hnodup : (rows.map Prod.fst).Nodup) :
    rows.countP (fun kr => kr.1 == k) ≤ 1 := by
  induction rows with
  | nil => simp [List.countP_nil]
  | cons r rs ih =>
    rw [List.map_cons, List.nodup_cons] at hnodup
    rw [List.countP_cons]
    by_cases hr : (r.1 == k) = true
    · have h0 : rs.countP (fun kr => kr.1 == k) = 0 := by
        rw [List.countP_eq_zero]
        intro kr hkr hp
        apply hnodup.1
        rw [beq_iff_eq] at hr hp
        rw [hr, ← hp]
        exact List.mem_map_of_mem Prod.fst hkr
      simp [h0, hr]
    · rw [if_neg hr]
      have := ih hnodup.2
      omega

theorem map_update_countP (rows : List (LC × LC)) (k rep : LC) :
    (rows.map (fun p => if p.1 == k then (k, rep) else p)).countP
      (fun kr => kr.1 == k) = rows.countP (fun kr => kr.1 == k) := by
  induction rows with
  | nil => rfl
  | cons r rs ih =>
    rw [List.map_cons, List.countP_cons, List.countP_cons, ih]
    congr 1
    by_cases hr : r.1 == k
    · simp [hr]
    · simp [hr]

theorem count_key_add_filter (rows : List (LC × LC)) (key reply : LC)
    (hnodup : (rows.map Prod.fst).Nodup) :
    ((add_filter rows key reply).filter
      (fun kr => kr.1 == normalize_key key)).length = 1 := by
  rw [← List.countP_eq_length_filter]
  unfold add_filter
  by_cases h : rows.any (fun kr => kr.1 == normalize_key key)
  · rw [if_pos h, map_update_countP]
    have hle := countP_key_le_one rows (normalize_key key) hnodup
    have hpos : 0 < rows.countP (fun kr => kr.1 == normalize_key key) := by
      rw [List.countP_pos_iff]
      rw [List.any_eq_true] at h
      obtain ⟨kr, hmem, hk⟩ := h
      exact ⟨kr, hmem, hk⟩
    omega
  · rw [if_neg h, List.countP_append]
    have h0 : rows.countP (fun kr => kr.1 == normalize_key key) = 0 := by
      rw [List.countP_eq_zero]
      intro kr hkr hp
      exact h (List.any_eq_true.mpr ⟨kr, hkr, hp⟩)
    rw [h0]
    simp [List.countP_cons]

/-- Claim C5 counterexample: with filters stored for key hi (reply A) and key
hi there (reply B) — in both insertion and key order — the message text
hi there equals the stored key hi there up to case and trimming, yet
match_filter returns A, because the earlier key hi already matches as a whole
word.  This refutes the claim that match on text exactly equal to a stored
key always returns that key's reply. -/
theorem match_filter_shadowed_exact_key :
    match_filter (add_filter (add_filter [] "hi".data "A".data)
        "hi there".data "B".data)
        "hi there".data = some "A".data ∧
    ("A".data : LC) ≠ "B".data := by
  constructor
  · decide
  · decide

/-- Claim C5 (amended): add_filter is idempotent — storing the same
(key, reply) twice equals storing it once, and the resulting table has
exactly one row for that key (given the primary-key invariant that stored
keys are distinct); and match_filter on non-empty text equal to a stored key
up to case and trimming returns that key's reply provided no row stored
earlier in the table matches the text. -/
theorem filter_put_idem_and_exact_match :
    (∀ (rows : List (LC × LC)) (key reply : LC),
      add_filter (add_filter rows key reply) key reply = add_filter rows key reply) ∧
    (∀ (rows : List (LC × LC)) (key reply : LC),
      (rows.map Prod.fst).Nodup →
      ((add_filter rows key reply).filter
        (fun kr => kr.1 == normalize_key key)).length = 1) ∧
    (∀ (pre post : List (LC × LC)) (k r text : LC),
      text ≠ [] →
      pyStrip (pyLower text) = pyLower k →
      (∀ kr ∈ pre, filter_row_test kr.1 (pyLower text) = false) →
      match_filter (pre ++ (k, r) :: post) text = some r) := by
  refine ⟨add_filter_idem, count_key_add_filter, ?_⟩
  intro pre post k r text hne hstrip hpre
  unfold match_filter
  rw [if_neg hne]
  induction pre with
  | nil =>
    simp only [List.nil_append, List.findSome?]
    have : filter_row_test k (pyLower text) = true := by
      unfold filter_row_test
      rw [Bool.or_eq_true, beq_iff_eq]
      exact Or.inr hstrip
    simp [this]
  | cons p pre ih =>
    have hp := hpre p (List.mem_cons_self p pre)
    simp only [List.cons_append, List.findSome?, hp]
    exact ih (fun kr hkr => hpre kr (List.mem_cons_of_mem p hkr))

/-- Witness for claim C5 (amended) at a concrete table: the single filter
hello → HI matched by the text  HELLO  differing in case and spacing. -/
theorem filter_put_idem_and_exact_match_witness :
    (add_filter (add_filter [] "hello".data "HI".data)
        "hello".data "HI".data =
      add_filter [] "hello".data "HI".data) ∧
    ((" HELLO ".data : LC) ≠ [] ∧
      pyStrip (pyLower " HELLO ".data) =
        pyLower "hello".data ∧
      match_filter ([] ++ ("hello".data, "HI".data) :: [])
        " HELLO ".data = some "HI".data) :=
  ⟨filter_put_idem_and_exact_match.1 [] _ _,
   by decide,
   by decide,
   filter_put_idem_and_exact_match.2.2 [] [] "hello".data "HI".data
     " HELLO ".data (by decide) (by decide) (by decide)⟩

/-! ## Settings store (chat_settings table; get_setting / set_setting)

The SQLite layer is modelled by a flag saying whether the database is
reachable plus the table contents.  Neither get_setting nor
set_setting wraps its SQL statements in a try/except, so when the
database is unreachable the error propagates to the caller; this is
modelled by returning Except.error.  The chat_settings schema gives
the integer columns antilink and antispam a DEFAULT of 0 and leaves
the text columns NULL, which defaultRow reproduces for the row that
get_setting and set_setting insert on first contact with a chat. -/

/-- Columns of chat_settings other than the chat_id key. -/
inductive SettingKey where
  | antilink | antispam | welcome | goodbye | rules
deriving DecidableEq

/-- A stored column value: INTEGER or TEXT. -/
inductive SettingVal where
  | int (n : Int)
  | str (s : LC)
deriving DecidableEq

/-- One chat_settings row; none is SQL NULL. -/
def SettingsRow := SettingKey → Option SettingVal

/-- Row contents produced by INSERT OR IGNORE INTO chat_settings(chat_id):
the integer columns carry their schema DEFAULT 0, the text columns NULL. -/
def defaultRow : SettingsRow := fun k =>
  match k with
  | .antilink => some (.int 0)
  | .antispam => some (.int 0)
  | .welcome => none
  | .goodbye => none
  | .rules => none

/-- The persistence layer: availability flag plus table contents. -/
structure Store where
  ok : Bool
  rows : Int → Option SettingsRow

/-- Storage-layer failure surfaced to the caller. -/
inductive StorageError where
  | unavailable
deriving DecidableEq

/-- Embeds get_setting: with the database unreachable the SQL call raises
(there is no try/except, so the error propagates); with a missing row the
row is inserted and the supplied default returned; with a NULL column the
default is returned; otherwise the stored value. -/
def get_setting (st : Store) (chatId : Int) (key : SettingKey)
    (dflt : Option SettingVal) : Except StorageError (Option SettingVal × Store) :=
  if st.ok = false then Except.error StorageError.unavailable
  else
    match st.rows chatId with
    | none =>
      Except.ok (dflt,
        { st with rows := fun c => if c = chatId then some defaultRow else st.rows c })
    | some row =>
      Except.ok ((match row key with | none => dflt | some v => some v), st)

/-- Embeds set_setting: with the database unreachable the SQL call raises
and nothing is written; otherwise the row is ensured and the column
updated. -/
def set_setting (st : Store) (chatId : Int) (key : SettingKey) (v : SettingVal) :
    Except StorageError Store :=
  if st.ok = false then Except.error StorageError.unavailable
  else
    Except.ok
      { st with
        rows := fun c =>
          if c = chatId then
            some (fun k =>
              if k = key then some v else ((st.rows chatId).getD defaultRow) k)
          else st.rows c }

/-- Claim C8 counterexample: with the storage layer failing, a settings read
of the kind the moderation path performs propagates the failure instead of
returning the policy default, refuting the fail-open half of the claim (the
write also fails, which is the fail-closed half). -/
theorem get_setting_fails_closed_on_storage_error :
    get_setting { ok := false, rows := fun _ => none } 1 SettingKey.antilink
        (some (SettingVal.int 0)) = Except.error StorageError.unavailable ∧
    set_setting { ok := false, rows := fun _ => none } 1 SettingKey.antilink
        (SettingVal.int 1) = Except.error StorageError.unavailable := by
  exact ⟨rfl, rfl⟩

/-- Claim C8 (amended): when the storage layer fails, both settings reads and
settings writes propagate the StorageError to the caller — reads do not fall
back to the policy defaults; the write is rejected.  The default-returning
behaviour of reads applies only with the storage layer up, to a chat with no
stored row or to a NULL column. -/
theorem settings_error_propagation (st : Store) (c : Int) (k : SettingKey)
    (d : Option SettingVal) (v : SettingVal) :
    (st.ok = false →
      get_setting st c k d = Except.error StorageError.unavailable ∧
      set_setting st c k v = Except.error StorageError.unavailable) ∧
    (st.ok = true → st.rows c = none →
      get_setting st c k d = Except.ok (d,
        { st with rows := fun c' => if c' = c then some defaultRow else st.rows c' })) ∧
    (st.ok = true → ∀ row, st.rows c = some row → row k = none →
      get_setting st c k d = Except.ok (d, st)) := by
  refine ⟨?_, ?_, ?_⟩
  · intro hok
    unfold get_setting set_setting
    rw [hok]
    exact ⟨rfl, rfl⟩
  · intro hok hrow
    unfold get_setting
    rw [hok, hrow]
    rfl
  · intro hok row hrow hk
    unfold get_setting
    rw [hok, hrow]
    simp [hk]

/-- Witness for claim C8 (amended) at concrete stores: a failing store and a
working store with no row for chat 1. -/
theorem settings_error_propagation_witness :
    (({ ok := false, rows := fun _ => none } : Store).ok = false →
      get_setting { ok := false, rows := fun _ => none } 1 SettingKey.antispam none =
        Except.error StorageError.unavailable ∧
      set_setting { ok := false, rows := fun _ => none } 1 SettingKey.antispam
        (SettingVal.int 1) = Except.error StorageError.unavailable) ∧
    (({ ok := true, rows := fun _ => none } : Store).ok = true →
      ({ ok := true, rows := fun _ => none } : Store).rows 1 = none →
      get_setting { ok := true, rows := fun _ => none } 1 SettingKey.antispam none =
        Except.ok (none,
          { ok := true,
            rows := fun c' => if c' = 1 then some defaultRow else
              ({ ok := true, rows := fun _ => none } : Store).rows c' })) :=
  ⟨(settings_error_propagation { ok := false, rows := fun _ => none } 1
      SettingKey.antispam none (SettingVal.int 1)).1,
   (settings_error_propagation { ok := true, rows := fun _ => none } 1
      SettingKey.antispam none (SettingVal.int 1)).2.1⟩

/-! ## Template renderer (render_template)

Python str.replace(pat, rep) replaces every non-overlapping occurrence
of pat, scanning left to right.  replaceAllF is the fuel-indexed
worker (each step consumes at least one character, so length fuel
suffices); replaceAll is the wrapper.  render_template only ever
passes non-empty literal patterns, so the empty-pattern guard (where
Python would interleave rep between characters) is never exercised. -/

/-- Fuel-indexed left-to-right scan replacing each occurrence of pat. -/
def replaceAllF (fuel : Nat) (s pat rep : LC) : LC :=
  match fuel with
  | 0 => s
  | fuel + 1 =>
    match s with
    | [] => []
    | c :: rest =>
      if pat.isPrefixOf (c :: rest) then
        rep ++ replaceAllF fuel ((c :: rest).drop pat.length) pat rep
      else
        c :: replaceAllF fuel rest pat rep

/-- Embeds Python str.replace for the non-empty patterns the renderer uses. -/
def replaceAll (s pat rep : LC) : LC :=
  if pat = [] then s else replaceAllF s.length s pat rep

/-- First-occurrence-only substitution, written from the claim's wording for
comparison with the code's replaceAll. -/
def replaceFirst (s pat rep : LC) : LC :=
  match s with
  | [] => []
  | c :: rest =>
    if pat.isPrefixOf (c :: rest) then rep ++ (c :: rest).drop pat.length
    else c :: replaceFirst rest pat rep

/-- Fuel-indexed worker splitting s at each non-overlapping occurrence of
pat, the split half of the split/join formulation of str.replace. -/
def splitOnListF (fuel : Nat) (s pat : LC) : List LC :=
  match fuel with
  | 0 => [s]
  | fuel + 1 =>
    match s with
    | [] => [[]]
    | c :: rest =>
      if pat.isPrefixOf (c :: rest) then
        [] :: splitOnListF fuel ((c :: rest).drop pat.length) pat
      else
        match splitOnListF fuel rest pat with
        | [] => [[c]]
        | h :: tl => (c :: h) :: tl

/-- Split on every occurrence of a non-empty pattern. -/
def splitOnList (s pat : LC) : List LC :=
  if pat = [] then [s] else splitOnListF s.length s pat

/-- Joins pieces with a separator, the join half of split/join. -/
def joinWith (sep : LC) : List LC → LC
  | [] => []
  | [x] => x
  | x :: y :: t => x ++ sep ++ joinWith sep (y :: t)

/-- All-occurrence literal substring replacement in its split/join
formulation, the specification-side counterpart of replaceAll. -/
def pyReplace (s pat rep : LC) : LC := joinWith rep (splitOnList s pat)

theorem replaceAllF_nil (fuel : Nat) (pat rep : LC) :
    replaceAllF fuel [] pat rep = [] := by
  cases fuel <;> rfl

theorem replaceAllF_succ (fuel : Nat) (c : Char) (rest pat rep : LC) :
    replaceAllF (fuel + 1) (c :: rest) pat rep =
      if pat.isPrefixOf (c :: rest) then
        rep ++ replaceAllF fuel ((c :: rest).drop pat.length) pat rep
      else c :: replaceAllF fuel rest pat rep := rfl

theorem splitOnListF_succ (fuel : Nat) (c : Char) (rest pat : LC) :
    splitOnListF (fuel + 1) (c :: rest) pat =
      if pat.isPrefixOf (c :: rest) then
        [] :: splitOnListF fuel ((c :: rest).drop pat.length) pat
      else
        match splitOnListF fuel rest pat with
        | [] => [[c]]
        | h :: tl => (c :: h) :: tl := rfl

theorem replaceAllF_fuel_irrel (pat : LC) (hp : pat ≠ []) :
    ∀ (fuel₁ fuel₂ : Nat) (s rep : LC), s.length ≤ fuel₁ → s.length ≤ fuel₂ →
      replaceAllF fuel₁ s pat rep = replaceAllF fuel₂ s pat rep := by
  intro fuel₁
  induction fuel₁ with
  | zero =>
    intro fuel₂ s rep h₁ h₂
    have : s = [] := List.eq_nil_of_length_eq_zero (Nat.le_zero.mp h₁)
    subst this
    rw [replaceAllF_nil, replaceAllF_nil]
  | succ n ih =>
    intro fuel₂ s rep h₁ h₂
    cases s with
    | nil => rw [replaceAllF_nil, replaceAllF_nil]
    | cons c rest =>
      have hlen : 0 < pat.length := List.length_pos.mpr hp
      cases fuel₂ with
      | zero => simp at h₂
      | succ m =>
        rw [replaceAllF_succ, replaceAllF_succ]
        by_cases hpre : pat.isPrefixOf (c :: rest)
        · rw [if_pos hpre, if_pos hpre]
          congr 1
          apply ih
          · rw [List.length_drop]
            simp only [List.length_cons] at h₁ ⊢
            omega
          · rw [List.length_drop]
            simp only [List.length_cons] at h₂ ⊢
            omega
        · rw [if_neg hpre, if_neg hpre]
          congr 1
          apply ih
          · simp only [List.length_cons] at h₁
            omega
          · simp only [List.length_cons] at h₂
            omega

theorem replaceAll_cons_pos (c : Char) (rest pat rep : LC) (hp : pat ≠ [])
    (hpre : pat.isPrefixOf (c :: rest)) :
    replaceAll (c :: rest) pat rep =
      rep ++ replaceAll ((c :: rest).drop pat.length) pat rep := by
  have hlen : 0 < pat.length := List.length_pos.mpr hp
  unfold replaceAll
  rw [if_neg hp, if_neg hp]
  rw [show (c :: rest).length = rest.length + 1 from rfl, replaceAllF_succ, if_pos hpre]
  congr 1
  apply replaceAllF_fuel_irrel pat hp
  · rw [List.length_drop]
    simp only [List.length_cons]
    omega
  · exact Nat.le_refl _

theorem replaceAll_cons_neg (c : Char) (rest pat rep : LC) (hp : pat ≠ [])
    (hpre : ¬ pat.isPrefixOf (c :: rest)) :
    replaceAll (c :: rest) pat rep = c :: replaceAll rest pat rep := by
  unfold replaceAll
  rw [if_neg hp, if_neg hp]
  rw [show (c :: rest).length = rest.length + 1 from rfl, replaceAllF_succ, if_neg hpre]

theorem splitOnListF_ne_nil (fuel : Nat) (s pat : LC) :
    splitOnListF fuel s pat ≠ [] := by
  cases fuel with
  | zero => simp [splitOnListF]
  | succ n =>
    cases s with
    | nil => simp [splitOnListF]
    | cons c rest =>
      rw [splitOnListF_succ]
      by_cases hpre : pat.isPrefixOf (c :: rest)
      · rw [if_pos hpre]; simp
      · rw [if_neg hpre]
        cases splitOnListF n rest pat <;> simp

theorem splitOnList_ne_nil (s pat : LC) : splitOnList s pat ≠ [] := by
  unfold splitOnList
  by_cases hp : pat = []
  · rw [if_pos hp]; simp
  · rw [if_neg hp]; exact splitOnListF_ne_nil _ _ _

theorem splitOnListF_fuel_irrel (pat : LC) (hp : pat ≠ []) :
    ∀ (fuel₁ fuel₂ : Nat) (s : LC), s.length ≤ fuel₁ → s.length ≤ fuel₂ →
      splitOnListF fuel₁ s pat = splitOnListF fuel₂ s pat := by
  intro fuel₁
  induction fuel₁ with
  | zero =>
    intro fuel₂ s h₁ h₂
    have : s = [] := List.eq_nil_of_length_eq_zero (Nat.le_zero.mp h₁)
    subst this
    cases fuel₂ <;> rfl
  | succ n ih =>
    intro fuel₂ s h₁ h₂
    cases s with
    | nil => cases fuel₂ <;> rfl
    | cons c rest =>
      have hlen : 0 < pat.length := List.length_pos.mpr hp
      cases fuel₂ with
      | zero => simp at h₂
      | succ m =>
        rw [splitOnListF_succ, splitOnListF_succ]
        by_cases hpre : pat.isPrefixOf (c :: rest)
        · rw [if_pos hpre, if_pos hpre]
          congr 1
          apply ih
          · rw [List.length_drop]
            simp only [List.length_cons] at h₁ ⊢
            omega
          · rw [List.length_drop]
            simp only [List.length_cons] at h₂ ⊢
            omega
        · rw [if_neg hpre, if_neg hpre]
          rw [ih m rest (by simp only [List.length_cons] at h₁; omega)
            (by simp only [List.length_cons] at h₂; omega)]

theorem splitOnList_cons_pos (c : Char) (rest pat : LC) (hp : pat ≠ [])
    (hpre : pat.isPrefixOf (c :: rest)) :
    splitOnList (c :: rest) pat =
      [] :: splitOnList ((c :: rest).drop pat.length) pat := by
  have hlen : 0 < pat.length := List.length_pos.mpr hp
  unfold splitOnList
  rw [if_neg hp, if_neg hp]
  rw [show (c :: rest).length = rest.length + 1 from rfl, splitOnListF_succ, if_pos hpre]
  congr 1
  apply splitOnListF_fuel_irrel pat hp
  · rw [List.length_drop]
    simp only [List.length_cons]
    omega
  · exact Nat.le_refl _

theorem splitOnList_cons_neg (c : Char) (rest pat : LC) (hp : pat ≠ [])
    (hpre : ¬ pat.isPrefixOf (c :: rest)) :
    splitOnList (c :: rest) pat =
      match splitOnList rest pat with
      | [] => [[c]]
      | h :: tl => (c :: h) :: tl := by
  unfold splitOnList
  rw [if_neg hp, if_neg hp]
  rw [show (c :: rest).length = rest.length + 1 from rfl, splitOnListF_succ, if_neg hpre]

theorem replaceAll_eq_pyReplace_aux (pat rep : LC) (hp : pat ≠ []) :
    ∀ (n : Nat) (s : LC), s.length ≤ n →
      replaceAll s pat rep = pyReplace s pat rep := by
  intro n
  induction n with
  | zero =>
    intro s hs
    have : s = [] := List.eq_nil_of_length_eq_zero (Nat.le_zero.mp hs)
    subst this
    unfold replaceAll pyReplace splitOnList
    rw [if_neg hp, if_neg hp]
    rfl
  | succ n ih =>
    intro s hs
    cases s with
    | nil =>
      unfold replaceAll pyReplace splitOnList
      rw [if_neg hp, if_neg hp]
      rfl
    | cons c rest =>
      have hlen : 0 < pat.length := List.length_pos.mpr hp
      by_cases hpre : pat.isPrefixOf (c :: rest)
      · rw [replaceAll_cons_pos c rest pat rep hp hpre,
          ih ((c :: rest).drop pat.length)
            (by rw [List.length_drop]; simp only [List.length_cons] at hs ⊢; omega)]
        unfold pyReplace
        rw [splitOnList_cons_pos c rest pat hp hpre]
        obtain ⟨h, tl, he⟩ : ∃ h tl, splitOnList ((c :: rest).drop pat.length) pat = h :: tl := by
          cases hsp : splitOnList ((c :: rest).drop pat.length) pat with
          | nil => exact absurd hsp (splitOnList_ne_nil _ _)
          | cons h tl => exact ⟨h, tl, rfl⟩
        rw [he]
        rfl
      · rw [replaceAll_cons_neg c rest pat rep hp hpre,
          ih rest (by simp only [List.length_cons] at hs; omega)]
        unfold pyReplace
        rw [splitOnList_cons_neg c rest pat hp hpre]
        obtain ⟨h, tl, he⟩ : ∃ h tl, splitOnList rest pat = h :: tl := by
          cases hsp : splitOnList rest pat with
          | nil => exact absurd hsp (splitOnList_ne_nil _ _)
          | cons h tl => exact ⟨h, tl, rfl⟩
        rw [he]
        cases tl with
        | nil => rfl
        | cons t tl => rfl

theorem replaceAll_eq_pyReplace (s pat rep : LC) :
    replaceAll s pat rep = pyReplace s pat rep := by
  by_cases hp : pat = []
  · unfold replaceAll pyReplace splitOnList
    rw [if_pos hp, if_pos hp]
    rfl
  · exact replaceAll_eq_pyReplace_aux pat rep hp s.length s (Nat.le_refl _)

/-- The user fields the renderer draws on. -/
structure TUser where
  full_name : LC
  mention_html : LC
  id : Int

/-- The chat fields the renderer draws on. -/
structure TChat where
  title : LC

/-- Embeds render_template: the four placeholder substitutions applied with
str.replace in the order name, mention, id, chat, with the fallback values
used when the user or chat is missing. -/
def render_template (template : LC) (user : Option TUser) (chat : Option TChat) : LC :=
  let name := match user with | some u => u.full_name | none => "there".data
  let mention := match user with | some u => u.mention_html | none => "there".data
  let uid := match user with | some u => (toString u.id).data | none => "0".data
  let chatname := match chat with | some ch => ch.title | none => "this chat".data
  replaceAll (replaceAll (replaceAll (replaceAll template "{name}".data name)
    "{mention}".data mention) "{id}".data uid) "{chat}".data chatname

/-- The renderer the claim describes, written from its wording: literal
substring replacement of only the first occurrence of each placeholder type,
in the order name, mention, id, chat. -/
def render_template_first_only (template : LC) (user : Option TUser)
    (chat : Option TChat) : LC :=
  let name := match user with | some u => u.full_name | none => "there".data
  let mention := match user with | some u => u.mention_html | none => "there".data
  let uid := match user with | some u => (toString u.id).data | none => "0".data
  let chatname := match chat with | some ch => ch.title | none => "this chat".data
  replaceFirst (replaceFirst (replaceFirst (replaceFirst template "{name}".data name)
    "{mention}".data mention) "{id}".data uid) "{chat}".data chatname

/-- All-occurrence renderer in the split/join formulation, the
specification-side counterpart used by the amended claim. -/
def renderTemplateAllOcc (template : LC) (user : Option TUser)
    (chat : Option TChat) : LC :=
  let name := match user with | some u => u.full_name | none => "there".data
  let mention := match user with | some u => u.mention_html | none => "there".data
  let uid := match user with | some u => (toString u.id).data | none => "0".data
  let chatname := match chat with | some ch => ch.title | none => "this chat".data
  pyReplace (pyReplace (pyReplace (pyReplace template "{name}".data name)
    "{mention}".data mention) "{id}".data uid) "{chat}".data chatname

/-- Claim C4 counterexample: on the template with two name placeholders the
code substitutes both occurrences, whereas the claimed first-occurrence-only
substitution leaves the second in place; the results differ, so substitution
is not first-occurrence-only. -/
theorem render_template_not_first_only :
    render_template "{name} and {name}".data
        (some { full_name := "Al".data, mention_html := "@Al".data, id := 7 })
        (some { title := "Room".data }) = "Al and Al".data ∧
    render_template_first_only "{name} and {name}".data
        (some { full_name := "Al".data, mention_html := "@Al".data, id := 7 })
        (some { title := "Room".data }) = "Al and {name}".data ∧
    ("Al and Al".data : LC) ≠ "Al and {name}".data := by
  refine ⟨by decide, by decide, by decide⟩

/-- Claim C4 (amended): render_template substitutes the placeholders by
literal substring replacement of every occurrence of each placeholder type
(not only the first), in the order name, then mention, then id, then chat;
it coincides with the split/join formulation of all-occurrence replacement,
and reproduces the specification's own example. -/
theorem render_template_all_occurrences :
    (∀ (template : LC) (user : Option TUser) (chat : Option TChat),
      render_template template user chat = renderTemplateAllOcc template user chat) ∧
    render_template "Hi {name} ({id}) in {chat}".data
        (some { full_name := "Al".data, mention_html := "@Al".data, id := 7 })
        (some { title := "Room".data }) = "Hi Al (7) in Room".data := by
  constructor
  · intro template user chat
    unfold render_template renderTemplateAllOcc
    rw [replaceAll_eq_pyReplace, replaceAll_eq_pyReplace, replaceAll_eq_pyReplace,
      replaceAll_eq_pyReplace]
  · decide

/-- Witness for claim C4 (amended) at a concrete template. -/
theorem render_template_all_occurrences_witness :
    render_template "{name} {mention}".data none none =
      renderTemplateAllOcc "{name} {mention}".data none none :=
  render_template_all_occurrences.1 "{name} {mention}".data none none

/-! ## Moderation engine (moderate_messages)

The per-message decision procedure: filter auto-reply, then anti-link
(may delete and stop), then anti-spam (may delete and stop).  The
is_admin collaborator's verdict for the update is a field of the
event; the admin skip in both the link and the spam branch requires
an effective_user to be present (`if user and await is_admin`), so a
sender-less message never gets the bypass and is tracked under user
id 0 (`user.id if user else 0`).  The link recognizer — LINK_RE
searched over the CODEBLOCK_SAFE-stripped text — enters as the
environment function linkDetect; no claim depends on its internals. -/

/-- Telegram chat type as the handler distinguishes it. -/
inductive ChatType where
  | group | supergroup | channelChat | privateChat
deriving DecidableEq

/-- One inbound message event, together with the answer the is_admin
collaborator gives for it. -/
structure MsgEvent where
  chatType : ChatType
  chatId : Int
  userId : Option Int
  isAdmin : Bool
  text : Option LC

/-- Outbound actions moderate_messages can emit: the filter auto-reply, the
message deletion, and the two notices. -/
inductive Action where
  | filterReply (r : LC)
  | deleteMessage
  | linkNotice
  | spamNotice
deriving DecidableEq

/-- In-memory spam tracker state: chat id → user id → timestamp deque. -/
def Tracker := Int → Int → List ℚ

/-- Pointwise update of one (chat, user) deque. -/
def updateTracker (tr : Tracker) (chatId userId : Int) (dq : List ℚ) : Tracker :=
  fun c u => if c = chatId ∧ u = userId then dq else tr c u

/-- Per-chat policy state and collaborators of moderate_messages: the two
toggles as get_setting reads them back (default 0 coerced to false), each
chat's filter rows, and the outcome of the link-pattern search on the
code-block-stripped text. -/
structure ModEnv where
  antilink : Int → Bool
  antispam : Int → Bool
  filters : Int → List (LC × LC)
  linkDetect : LC → Bool

/-- Step 1 of moderate_messages: the filter auto-reply actions. -/
def filter_actions (env : ModEnv) (chatId : Int) (text : LC) : List Action :=
  match match_filter (env.filters chatId) text with
  | some r => [Action.filterReply r]
  | none => []

/-- Step 3 of moderate_messages, the anti-spam check: admins with a resolved
user are skipped; otherwise the timestamp is appended to the sender's window
(the tracker is updated whether or not the limit is hit) and, over the
limit, the message is deleted and the slow-down notice sent. -/
def spam_phase (env : ModEnv) (ev : MsgEvent) (tr : Tracker) (now : ℚ)
    (acts : List Action) : List Action × Tracker :=
  if env.antispam ev.chatId then
    if ev.userId.isSome && ev.isAdmin then (acts, tr)
    else
      if (spamStep (tr ev.chatId (ev.userId.getD 0)) now).2 then
        (acts ++ [Action.deleteMessage, Action.spamNotice],
         updateTracker tr ev.chatId (ev.userId.getD 0)
           (spamStep (tr ev.chatId (ev.userId.getD 0)) now).1)
      else
        (acts,
         updateTracker tr ev.chatId (ev.userId.getD 0)
           (spamStep (tr ev.chatId (ev.userId.getD 0)) now).1)
  else (acts, tr)

/-- Embeds moderate_messages: ignore non-group chats and textless or empty
messages; emit the filter reply; with antilink on and a link found, skip for
admins with a resolved user, otherwise delete, notify and stop (the spam
check is not reached); otherwise run the anti-spam check. -/
def moderate (env : ModEnv) (ev : MsgEvent) (tr : Tracker) (now : ℚ) :
    List Action × Tracker :=
  if ev.chatType = ChatType.group ∨ ev.chatType = ChatType.supergroup then
    match ev.text with
    | none => ([], tr)
    | some text =>
      if text = [] then ([], tr)
      else
        if env.antilink ev.chatId then
          if env.linkDetect text then
            if ev.userId.isSome && ev.isAdmin then
              (filter_actions env ev.chatId text, tr)
            else
              (filter_actions env ev.chatId text ++
                [Action.deleteMessage, Action.linkNotice], tr)
          else spam_phase env ev tr now (filter_actions env ev.chatId text)
        else spam_phase env ev tr now (filter_actions env ev.chatId text)
  else ([], tr)

theorem mem_filter_actions (env : ModEnv) (chatId : Int) (text : LC) (a : Action) :
    a ∈ filter_actions env chatId text → ∃ r, a = Action.filterReply r := by
  unfold filter_actions
  cases match_filter (env.filters chatId) text with
  | none => simp
  | some r =>
    intro h
    rw [List.mem_singleton] at h
    exact ⟨r, h⟩

theorem spam_phase_shape (env : ModEnv) (ev : MsgEvent) (tr : Tracker) (now : ℚ)
    (acts : List Action) :
    (spam_phase env ev tr now acts).1 = acts ∨
    (spam_phase env ev tr now acts).1 =
      acts ++ [Action.deleteMessage, Action.spamNotice] := by
  unfold spam_phase
  by_cases h1 : env.antispam ev.chatId
  · rw [if_pos h1]
    by_cases h2 : ev.userId.isSome && ev.isAdmin
    · rw [if_pos h2]
      exact Or.inl rfl
    · rw [if_neg h2]
      cases h3 : (spamStep (tr ev.chatId (ev.userId.getD 0)) now).2 with
      | true => exact Or.inr rfl
      | false => exact Or.inl rfl
  · rw [if_neg h1]
    exact Or.inl rfl

theorem moderate_eq_some (env : ModEnv) (ev : MsgEvent) (tr : Tracker) (now : ℚ)
    (text : LC)
    (hgroup : ev.chatType = ChatType.group ∨ ev.chatType = ChatType.supergroup)
    (htext : ev.text = some text) (hne : text ≠ []) :
    moderate env ev tr now =
      (if env.antilink ev.chatId then
        if env.linkDetect text then
          if ev.userId.isSome && ev.isAdmin then
            (filter_actions env ev.chatId text, tr)
          else
            (filter_actions env ev.chatId text ++
              [Action.deleteMessage, Action.linkNotice], tr)
        else spam_phase env ev tr now (filter_actions env ev.chatId text)
      else spam_phase env ev tr now (filter_actions env ev.chatId text)) := by
  unfold moderate
  rw [if_pos hgroup, htext]
  show (if text = [] then (([] : List Action), tr) else _) = _
  rw [if_neg hne]

/-- Claim C3: in a group whose antilink setting is disabled the link check
never deletes: whatever the message contains, the emitted actions hold no
link notice, and any delete-message action present is the spam deletion,
accompanied by its slow-down notice. -/
theorem antilink_disabled_no_link_delete (env : ModEnv) (ev : MsgEvent)
    (tr : Tracker) (now : ℚ) (h : env.antilink ev.chatId = false) :
    Action.linkNotice ∉ (moderate env ev tr now).1 ∧
    (Action.deleteMessage ∈ (moderate env ev tr now).1 →
      Action.spamNotice ∈ (moderate env ev tr now).1) := by
  by_cases hg : ev.chatType = ChatType.group ∨ ev.chatType = ChatType.supergroup
  · cases htext : ev.text with
    | none =>
      unfold moderate
      rw [if_pos hg, htext]
      simp
    | some text =>
      by_cases hne : text = []
      · unfold moderate
        rw [if_pos hg, htext]
        subst hne
        simp
      · rw [moderate_eq_some env ev tr now text hg htext hne,
          if_neg (by rw [h]; exact Bool.false_ne_true)]
        rcases spam_phase_shape env ev tr now (filter_actions env ev.chatId text) with
          hs | hs
        · rw [hs]
          constructor
          · intro hmem
            obtain ⟨r, hr⟩ := mem_filter_actions env ev.chatId text _ hmem
            exact Action.noConfusion hr
          · intro hmem
            obtain ⟨r, hr⟩ := mem_filter_actions env ev.chatId text _ hmem
            exact absurd hr (by exact fun hc => Action.noConfusion hc)
        · rw [hs]
          constructor
          · intro hmem
            rcases List.mem_append.mp hmem with hmem | hmem
            · obtain ⟨r, hr⟩ := mem_filter_actions env ev.chatId text _ hmem
              exact Action.noConfusion hr
            · simp at hmem
          · intro _
            exact List.mem_append.mpr (Or.inr (by simp))
  · unfold moderate
    rw [if_neg hg]
    simp

/-- Witness for claim C3 at a concrete input: antilink off, antispam on, a
lone non-admin message. -/
theorem antilink_disabled_no_link_delete_witness :
    (({ antilink := fun _ => false, antispam := fun _ => true,
        filters := fun _ => [], linkDetect := fun _ => true } : ModEnv).antilink 1 = false) ∧
    (Action.linkNotice ∉ (moderate
        { antilink := fun _ => false, antispam := fun _ => true,
          filters := fun _ => [], linkDetect := fun _ => true }
        { chatType := ChatType.group, chatId := 1, userId := some 2,
          isAdmin := false, text := some "www".data }
        (fun _ _ => []) 0).1 ∧
      (Action.deleteMessage ∈ (moderate
        { antilink := fun _ => false, antispam := fun _ => true,
          filters := fun _ => [], linkDetect := fun _ => true }
        { chatType := ChatType.group, chatId := 1, userId := some 2,
          isAdmin := false, text := some "www".data }
        (fun _ _ => []) 0).1 →
        Action.spamNotice ∈ (moderate
        { antilink := fun _ => false, antispam := fun _ => true,
          filters := fun _ => [], linkDetect := fun _ => true }
        { chatType := ChatType.group, chatId := 1, userId := some 2,
          isAdmin := false, text := some "www".data }
        (fun _ _ => []) 0).1)) :=
  ⟨rfl,
   antilink_disabled_no_link_delete
     { antilink := fun _ => false, antispam := fun _ => true,
       filters := fun _ => [], linkDetect := fun _ => true }
     { chatType := ChatType.group, chatId := 1, userId := some 2,
       isAdmin := false, text := some "www".data }
     (fun _ _ => []) 0 rfl⟩

/-- Claim C6: when the link check fires — antilink on, the recognizer
matching the (code-block-stripped) text and no admin bypass — the engine
emits the delete action then the link notice after any filter reply, and
stops: the spam check does not run and the spam tracker is unchanged. -/
theorem link_block_short_circuits (env : ModEnv) (ev : MsgEvent) (tr : Tracker)
    (now : ℚ) (text : LC)
    (hgroup : ev.chatType = ChatType.group ∨ ev.chatType = ChatType.supergroup)
    (htext : ev.text = some text) (hne : text ≠ [])
    (hal : env.antilink ev.chatId = true)
    (hlink : env.linkDetect text = true)
    (hadm : (ev.userId.isSome && ev.isAdmin) = false) :
    (moderate env ev tr now).1 =
      filter_actions env ev.chatId text ++ [Action.deleteMessage, Action.linkNotice] ∧
    (moderate env ev tr now).2 = tr := by
  rw [moderate_eq_some env ev tr now text hgroup htext hne, if_pos hal, if_pos hlink,
    if_neg (by rw [hadm]; exact Bool.false_ne_true)]
  exact ⟨rfl, rfl⟩

/-- Witness for claim C6 at a concrete input: antilink on, a link-bearing
message from a non-admin, with a prior spam window that stays untouched. -/
theorem link_block_short_circuits_witness :
    (ChatType.group = ChatType.group ∨ ChatType.group = ChatType.supergroup) ∧
    (moderate
        { antilink := fun _ => true, antispam := fun _ => true,
          filters := fun _ => [], linkDetect := fun _ => true }
        { chatType := ChatType.group, chatId := 1, userId := some 2,
          isAdmin := false, text := some "x".data }
        (fun _ _ => [(0 : ℚ)]) 5).1 =
      filter_actions
        { antilink := fun _ => true, antispam := fun _ => true,
          filters := fun _ => [], linkDetect := fun _ => true } 1 "x".data ++
        [Action.deleteMessage, Action.linkNotice] ∧
    (moderate
        { antilink := fun _ => true, antispam := fun _ => true,
          filters := fun _ => [], linkDetect := fun _ => true }
        { chatType := ChatType.group, chatId := 1, userId := some 2,
          isAdmin := false, text := some "x".data }
        (fun _ _ => [(0 : ℚ)]) 5).2 = (fun _ _ => [(0 : ℚ)]) :=
  ⟨Or.inl rfl,
   (link_block_short_circuits
     { antilink := fun _ => true, antispam := fun _ => true,
       filters := fun _ => [], linkDetect := fun _ => true }
     { chatType := ChatType.group, chatId := 1, userId := some 2,
       isAdmin := false, text := some "x".data }
     (fun _ _ => [(0 : ℚ)]) 5 "x".data (Or.inl rfl) rfl (by decide) rfl rfl rfl).1,
   (link_block_short_circuits
     { antilink := fun _ => true, antispam := fun _ => true,
       filters := fun _ => [], linkDetect := fun _ => true }
     { chatType := ChatType.group, chatId := 1, userId := some 2,
       isAdmin := false, text := some "x".data }
     (fun _ _ => [(0 : ℚ)]) 5 "x".data (Or.inl rfl) rfl (by decide) rfl rfl rfl).2⟩

theorem spam_phase_eq (env : ModEnv) (ev : MsgEvent) (tr : Tracker) (now : ℚ)
    (acts : List Action)
    (hspam : env.antispam ev.chatId = true)
    (hadm : (ev.userId.isSome && ev.isAdmin) = false) :
    spam_phase env ev tr now acts =
      (acts ++ (if (spamStep (tr ev.chatId (ev.userId.getD 0)) now).2 then
         [Action.deleteMessage, Action.spamNotice] else []),
       updateTracker tr ev.chatId (ev.userId.getD 0)
         (spamStep (tr ev.chatId (ev.userId.getD 0)) now).1) := by
  unfold spam_phase
  rw [if_pos hspam, if_neg (by rw [hadm]; exact Bool.false_ne_true)]
  cases h3 : (spamStep (tr ev.chatId (ev.userId.getD 0)) now).2 with
  | true => rfl
  | false => simp

theorem moderate_spam_eq (env : ModEnv) (ev : MsgEvent) (tr : Tracker) (now : ℚ)
    (text : LC)
    (hgroup : ev.chatType = ChatType.group ∨ ev.chatType = ChatType.supergroup)
    (htext : ev.text = some text) (hne : text ≠ [])
    (hspam : env.antispam ev.chatId = true)
    (hadm : (ev.userId.isSome && ev.isAdmin) = false)
    (hnolink : env.antilink ev.chatId = false ∨ env.linkDetect text = false) :
    moderate env ev tr now =
      (filter_actions env ev.chatId text ++
        (if (spamStep (tr ev.chatId (ev.userId.getD 0)) now).2 then
          [Action.deleteMessage, Action.spamNotice] else []),
       updateTracker tr ev.chatId (ev.userId.getD 0)
         (spamStep (tr ev.chatId (ev.userId.getD 0)) now).1) := by
  rw [moderate_eq_some env ev tr now text hgroup htext hne]
  rcases hnolink with hnl | hnl
  · rw [if_neg (by rw [hnl]; exact Bool.false_ne_true)]
    exact spam_phase_eq env ev tr now _ hspam hadm
  · by_cases hal : env.antilink ev.chatId = true
    · rw [if_pos hal, if_neg (by rw [hnl]; exact Bool.false_ne_true)]
      exact spam_phase_eq env ev tr now _ hspam hadm
    · rw [if_neg hal]
      exact spam_phase_eq env ev tr now _ hspam hadm

/-- Claim C9: the spam check appends the message timestamp to the sender's
window unconditionally — the tracker after moderation holds the appended
deque whether or not the message was flagged, so flagging neither clears nor
shrinks the window — and the message is flagged (delete then slow-down
notice after any filter reply) exactly when at least SPAM_MAX_MSGS entries
of the post-append window are within the 6-second window of the message
time; consequently each further message sent while that condition holds is
flagged in turn. -/
theorem spam_append_unconditional_flag_iff (env : ModEnv) (ev : MsgEvent)
    (tr : Tracker) (now : ℚ) (text : LC) (uid : Int)
    (hgroup : ev.chatType = ChatType.group ∨ ev.chatType = ChatType.supergroup)
    (htext : ev.text = some text) (hne : text ≠ [])
    (hspam : env.antispam ev.chatId = true)
    (hadm : (ev.userId.isSome && ev.isAdmin) = false)
    (hnolink : env.antilink ev.chatId = false ∨ env.linkDetect text = false)
    (huid : ev.userId.getD 0 = uid) :
    (moderate env ev tr now).2 =
      updateTracker tr ev.chatId uid (dequeAppend (tr ev.chatId uid) now) ∧
    ((moderate env ev tr now).1 =
        filter_actions env ev.chatId text ++
          [Action.deleteMessage, Action.spamNotice] ↔
      SPAM_MAX_MSGS ≤ countRecent (dequeAppend (tr ev.chatId uid) now) now) := by
  subst huid
  rw [moderate_spam_eq env ev tr now text hgroup htext hne hspam hadm hnolink]
  refine ⟨rfl, ?_⟩
  cases h3 : (spamStep (tr ev.chatId (ev.userId.getD 0)) now).2 with
  | true => exact iff_of_true rfl (of_decide_eq_true h3)
  | false =>
    refine iff_of_false ?_ (of_decide_eq_false h3)
    intro he
    have hl := congrArg List.length he
    rw [List.length_append, List.length_append] at hl
    simp at hl

/-- Concrete environment for the spam scenarios: antilink off, antispam on,
no filters, no links recognised. -/
def spamEnv : ModEnv :=
  { antilink := fun _ => false, antispam := fun _ => true,
    filters := fun _ => [], linkDetect := fun _ => false }

/-- Concrete non-admin group message of user 2 in chat 1 at a given time. -/
def burstEvent (t : ℚ) : MsgEvent × ℚ :=
  ({ chatType := ChatType.group, chatId := 1, userId := some 2,
     isAdmin := false, text := some "x".data }, t)

/-- Tracker with every window empty. -/
def emptyTracker : Tracker := fun _ _ => []

/-- Witness for claim C9 at a concrete input: a first message on an empty
window (appended, not flagged). -/
theorem spam_append_unconditional_flag_iff_witness :
    ((burstEvent 0).1.text = some "x".data ∧ ("x".data : LC) ≠ [] ∧
      spamEnv.antispam (burstEvent 0).1.chatId = true) ∧
    ((moderate spamEnv (burstEvent 0).1 emptyTracker 0).2 =
        updateTracker emptyTracker 1 2 (dequeAppend (emptyTracker 1 2) 0) ∧
      ((moderate spamEnv (burstEvent 0).1 emptyTracker 0).1 =
          filter_actions spamEnv 1 "x".data ++
            [Action.deleteMessage, Action.spamNotice] ↔
        SPAM_MAX_MSGS ≤ countRecent (dequeAppend (emptyTracker 1 2) 0) 0)) :=
  ⟨⟨rfl, by decide, rfl⟩,
   spam_append_unconditional_flag_iff spamEnv (burstEvent 0).1 emptyTracker 0
     "x".data 2 (Or.inl rfl) rfl (by decide) rfl rfl (Or.inl rfl) rfl⟩

/-- Claim C10: a group text message with no resolvable sender is tracked in
the spam window under the fixed user id 0 — all sender-less messages of a
chat share that one window — and the admin bypass never applies to it,
whatever the is_admin collaborator would answer; once at least SPAM_MAX_MSGS
entries of the shared window fall within the 6-second window, such a message
is deleted and the slow-down notice sent. -/
theorem senderless_tracked_under_zero (env : ModEnv) (ev : MsgEvent)
    (tr : Tracker) (now : ℚ) (text : LC)
    (huser : ev.userId = none)
    (hgroup : ev.chatType = ChatType.group ∨ ev.chatType = ChatType.supergroup)
    (htext : ev.text = some text) (hne : text ≠ [])
    (hspam : env.antispam ev.chatId = true)
    (hnolink : env.antilink ev.chatId = false ∨ env.linkDetect text = false) :
    (moderate env ev tr now).2 =
      updateTracker tr ev.chatId 0 (dequeAppend (tr ev.chatId 0) now) ∧
    (SPAM_MAX_MSGS ≤ countRecent (dequeAppend (tr ev.chatId 0) now) now →
      Action.deleteMessage ∈ (moderate env ev tr now).1 ∧
      Action.spamNotice ∈ (moderate env ev tr now).1) := by
  have hadm : (ev.userId.isSome && ev.isAdmin) = false := by
    rw [huser]
    rfl
  have huid : ev.userId.getD 0 = 0 := by
    rw [huser]
    rfl
  rw [moderate_spam_eq env ev tr now text hgroup htext hne hspam hadm hnolink, huid]
  refine ⟨rfl, ?_⟩
  intro hcount
  have hflag : (spamStep (tr ev.chatId 0) now).2 = true := decide_eq_true hcount
  rw [if_pos hflag]
  constructor <;> simp

/-- Sender-less group message in chat 1 (the is_admin collaborator even
answers true for it, which must not matter). -/
def senderlessEvent : MsgEvent :=
  { chatType := ChatType.group, chatId := 1, userId := none,
    isAdmin := true, text := some "x".data }

/-- Tracker whose chat-1 user-0 window already holds five recent
timestamps. -/
def senderlessTracker : Tracker := fun _ _ => [1, 2, 3, 4, 5]

/-- Witness for claim C10 at a concrete input: the sixth sender-less message
within six seconds is deleted although is_admin would have said yes. -/
theorem senderless_tracked_under_zero_witness :
    (senderlessEvent.userId = none ∧
      SPAM_MAX_MSGS ≤ countRecent (dequeAppend (senderlessTracker 1 0) 5) 5) ∧
    ((moderate spamEnv senderlessEvent senderlessTracker 5).2 =
        updateTracker senderlessTracker 1 0
          (dequeAppend (senderlessTracker 1 0) 5) ∧
      (Action.deleteMessage ∈ (moderate spamEnv senderlessEvent senderlessTracker 5).1 ∧
        Action.spamNotice ∈ (moderate spamEnv senderlessEvent senderlessTracker 5).1)) :=
  ⟨⟨rfl, by
      norm_num [SPAM_MAX_MSGS, countRecent, dequeAppend, lastWindow, TRACKER_MAXLEN,
        SPAM_WINDOW_SECONDS, senderlessTracker, List.filter]⟩,
   (senderless_tracked_under_zero spamEnv senderlessEvent senderlessTracker 5
     "x".data rfl (Or.inl rfl) rfl (by decide) rfl (Or.inl rfl)).1,
   (senderless_tracked_under_zero spamEnv senderlessEvent senderlessTracker 5
     "x".data rfl (Or.inl rfl) rfl (by decide) rfl (Or.inl rfl)).2 (by
      norm_num [SPAM_MAX_MSGS, countRecent, dequeAppend, lastWindow, TRACKER_MAXLEN,
        SPAM_WINDOW_SECONDS, senderlessTracker, List.filter])⟩

/-- Threads moderate over a list of timed events, collecting the actions
emitted for each message in order together with the final tracker. -/
def runModerate (env : ModEnv) (tr : Tracker) :
    List (MsgEvent × ℚ) → List (List Action) × Tracker
  | [] => ([], tr)
  | e :: rest =>
    let m := moderate env e.1 tr e.2
    let r := runModerate env m.2 rest
    (m.1 :: r.1, r.2)

/-- One event of a burst that reaches the spam check: a group message of the
given chat and sender with non-empty text, no admin bypass, and no link
short-circuit. -/
def spamReachable (env : ModEnv) (chatId : Int) (uid : Option Int)
    (e : MsgEvent × ℚ) : Prop :=
  (e.1.chatType = ChatType.group ∨ e.1.chatType = ChatType.supergroup) ∧
  e.1.chatId = chatId ∧ e.1.userId = uid ∧
  (e.1.userId.isSome && e.1.isAdmin) = false ∧
  ∃ text, e.1.text = some text ∧ text ≠ [] ∧
    (env.antilink chatId = false ∨ env.linkDetect text = false)

theorem mem_spam_result (env : ModEnv) (chatId : Int) (text : LC) (flag : Bool)
    (x : Action) (hx : ∀ r, x ≠ Action.filterReply r)
    (hxs : x = Action.deleteMessage ∨ x = Action.spamNotice) :
    decide (x ∈ filter_actions env chatId text ++
      (if flag then [Action.deleteMessage, Action.spamNotice] else [])) = flag := by
  cases flag with
  | false =>
    apply decide_eq_false
    intro hmem
    rcases List.mem_append.mp hmem with hmem | hmem
    · obtain ⟨r, hr⟩ := mem_filter_actions env chatId text x hmem
      exact hx r hr
    · simp at hmem
  | true =>
    apply decide_eq_true
    refine List.mem_append.mpr (Or.inr ?_)
    rcases hxs with rfl | rfl <;> simp

theorem runModerate_spam (env : ModEnv) (chatId : Int) (uid : Option Int)
    (hspam : env.antispam chatId = true) :
    ∀ (es : List (MsgEvent × ℚ)) (tr : Tracker),
      (∀ e ∈ es, spamReachable env chatId uid e) →
      ((runModerate env tr es).2 chatId (uid.getD 0) =
        (runSpam (tr chatId (uid.getD 0)) (es.map Prod.snd)).1 ∧
      (runModerate env tr es).1.map
          (fun acts => decide (Action.deleteMessage ∈ acts)) =
        (runSpam (tr chatId (uid.getD 0)) (es.map Prod.snd)).2 ∧
      (runModerate env tr es).1.map
          (fun acts => decide (Action.spamNotice ∈ acts)) =
        (runSpam (tr chatId (uid.getD 0)) (es.map Prod.snd)).2) := by
  intro es
  induction es with
  | nil =>
    intro tr h
    exact ⟨rfl, rfl, rfl⟩
  | cons e rest ih =>
    intro tr h
    obtain ⟨hg, hc, hu, hadm, text, htext, hne, hnl⟩ := h e (List.mem_cons_self e rest)
    have hspam' : env.antispam e.1.chatId = true := by rw [hc]; exact hspam
    have hnl' : env.antilink e.1.chatId = false ∨ env.linkDetect text = false := by
      rw [hc]; exact hnl
    have hmod := moderate_spam_eq env e.1 tr e.2 text hg htext hne hspam' hadm hnl'
    have hrest := ih ((moderate env e.1 tr e.2).2)
      (fun x hx => h x (List.mem_cons_of_mem e hx))
    have htrkey : (moderate env e.1 tr e.2).2 chatId (uid.getD 0) =
        (spamStep (tr chatId (uid.getD 0)) e.2).1 := by
      rw [hmod]
      show updateTracker tr e.1.chatId (e.1.userId.getD 0) _ chatId (uid.getD 0) = _
      unfold updateTracker
      rw [hc, hu]
      simp
    refine ⟨?_, ?_, ?_⟩
    · show (runModerate env (moderate env e.1 tr e.2).2 rest).2 chatId (uid.getD 0) = _
      rw [hrest.1, htrkey]
      rfl
    · show decide (Action.deleteMessage ∈ (moderate env e.1 tr e.2).1) ::
        ((runModerate env (moderate env e.1 tr e.2).2 rest).1.map
          (fun acts => decide (Action.deleteMessage ∈ acts))) =
        (spamStep (tr chatId (uid.getD 0)) e.2).2 ::
        (runSpam ((spamStep (tr chatId (uid.getD 0)) e.2).1) (rest.map Prod.snd)).2
      congr 1
      · rw [hmod, hc, hu]
        exact mem_spam_result env chatId text _ Action.deleteMessage
          (fun r => Action.noConfusion) (Or.inl rfl)
      · rw [hrest.2.1, htrkey]
    · show decide (Action.spamNotice ∈ (moderate env e.1 tr e.2).1) ::
        ((runModerate env (moderate env e.1 tr e.2).2 rest).1.map
          (fun acts => decide (Action.spamNotice ∈ acts))) =
        (spamStep (tr chatId (uid.getD 0)) e.2).2 ::
        (runSpam ((spamStep (tr chatId (uid.getD 0)) e.2).1) (rest.map Prod.snd)).2
      congr 1
      · rw [hmod, hc, hu]
        exact mem_spam_result env chatId text _ Action.spamNotice
          (fun r => Action.noConfusion) (Or.inr rfl)
      · rw [hrest.2.2, htrkey]

/-- Claim C2: (burst) in a group with antispam enabled, for every sequence of
at least SPAM_MAX_MSGS messages of one non-admin user that reach the spam
check and all fall within the 6-second window of the last one, the last
message is flagged — deleted and answered with the slow-down notice;
(spacing) starting from an empty window, messages each sent six or more
seconds after the previous one are never flagged, however many there are. -/
theorem spam_burst_flagged_and_spaced_never :
    (∀ (env : ModEnv) (chatId : Int) (uid : Option Int) (tr : Tracker)
        (es : List (MsgEvent × ℚ)) (e : MsgEvent × ℚ),
      env.antispam chatId = true →
      (∀ x ∈ es ++ [e], spamReachable env chatId uid x) →
      (tr chatId (uid.getD 0)).length ≤ TRACKER_MAXLEN →
      SPAM_MAX_MSGS ≤ es.length + 1 →
      (∀ x ∈ es ++ [e], e.2 - x.2 ≤ SPAM_WINDOW_SECONDS) →
      ∃ acts, (runModerate env tr (es ++ [e])).1.getLast? = some acts ∧
        Action.deleteMessage ∈ acts ∧ Action.spamNotice ∈ acts) ∧
    (∀ (env : ModEnv) (chatId : Int) (uid : Option Int) (tr : Tracker)
        (es : List (MsgEvent × ℚ)),
      env.antispam chatId = true →
      (∀ x ∈ es, spamReachable env chatId uid x) →
      tr chatId (uid.getD 0) = [] →
      List.Chain' (fun a b : ℚ => a + 6 ≤ b) (es.map Prod.snd) →
      ∀ acts ∈ (runModerate env tr es).1, Action.deleteMessage ∉ acts) := by
  constructor
  · intro env chatId uid tr es e hspam hre htr hlen hwin
    obtain ⟨htr2, hdel, hspn⟩ := runModerate_spam env chatId uid hspam (es ++ [e]) tr hre
    have hts : (es ++ [e]).map Prod.snd = es.map Prod.snd ++ [e.2] := by
      rw [List.map_append]
      rfl
    have hflag0 := runSpam_last_flag_true (tr chatId (uid.getD 0)) (es.map Prod.snd) e.2
      htr (by rw [List.length_map]; exact hlen)
      (by
        intro t ht
        rw [← hts] at ht
        obtain ⟨x, hx, rfl⟩ := List.mem_map.mp ht
        exact hwin x hx)
    have hflag1 : (runSpam (tr chatId (uid.getD 0))
        ((es ++ [e]).map Prod.snd)).2.getLast? = some true := by
      rw [hts]
      exact hflag0
    have hdelLast : ((runModerate env tr (es ++ [e])).1.getLast?).map
        (fun acts => decide (Action.deleteMessage ∈ acts)) = some true := by
      rw [← List.getLast?_map, hdel]
      exact hflag1
    obtain ⟨acts, hlast, hdec⟩ := Option.map_eq_some'.mp hdelLast
    have hspLast : ((runModerate env tr (es ++ [e])).1.getLast?).map
        (fun acts => decide (Action.spamNotice ∈ acts)) = some true := by
      rw [← List.getLast?_map, hspn]
      exact hflag1
    rw [hlast, Option.map_some'] at hspLast
    exact ⟨acts, hlast, of_decide_eq_true hdec,
      of_decide_eq_true (Option.some.inj hspLast)⟩
  · intro env chatId uid tr es hspam hre htr hchain acts hacts hmem
    obtain ⟨htr2, hdel, hspn⟩ := runModerate_spam env chatId uid hspam es tr hre
    have hflags := runSpam_flags_false (es.map Prod.snd) (tr chatId (uid.getD 0))
      (by rw [htr]; exact List.Pairwise.nil)
      (by intro x hx; rw [htr] at hx; simp at hx)
      (chain_six_pairwise _ hchain)
    have hfalse := hflags _ (by rw [← hdel]; exact List.mem_map_of_mem _ hacts)
    rw [decide_eq_false_iff_not] at hfalse
    exact hfalse hmem

/-- Witness for claim C2 at concrete runs: six messages at seconds 0 to 5
get the sixth deleted with the slow-down notice; messages at seconds 0, 6
and 12 are never flagged. -/
theorem spam_burst_flagged_and_spaced_never_witness :
    (spamEnv.antispam 1 = true ∧
      SPAM_MAX_MSGS ≤ [burstEvent 0, burstEvent 1, burstEvent 2, burstEvent 3,
        burstEvent 4].length + 1 ∧
      ∃ acts, (runModerate spamEnv emptyTracker
          ([burstEvent 0, burstEvent 1, burstEvent 2, burstEvent 3, burstEvent 4] ++
            [burstEvent 5])).1.getLast? = some acts ∧
        Action.deleteMessage ∈ acts ∧ Action.spamNotice ∈ acts) ∧
    (∀ acts ∈ (runModerate spamEnv emptyTracker
        [burstEvent 0, burstEvent 6, burstEvent 12]).1,
      Action.deleteMessage ∉ acts) :=
  ⟨⟨rfl, by decide,
    spam_burst_flagged_and_spaced_never.1 spamEnv 1 (some 2) emptyTracker
      [burstEvent 0, burstEvent 1, burstEvent 2, burstEvent 3, burstEvent 4]
      (burstEvent 5) rfl
      (by
        intro x hx
        fin_cases hx <;>
          exact ⟨Or.inl rfl, rfl, rfl, rfl, "x".data, rfl, by decide, Or.inl rfl⟩)
      (by decide) (by decide)
      (by
        intro x hx
        fin_cases hx <;> norm_num [burstEvent, SPAM_WINDOW_SECONDS])⟩,
   spam_burst_flagged_and_spaced_never.2 spamEnv 1 (some 2) emptyTracker
     [burstEvent 0, burstEvent 6, burstEvent 12] rfl
     (by
       intro x hx
       fin_cases hx <;>
         exact ⟨Or.inl rfl, rfl, rfl, rfl, "x".data, rfl, by decide, Or.inl rfl⟩)
     rfl
     (by
       show List.Chain' (fun a b : ℚ => a + 6 ≤ b) [(0 : ℚ), 6, 12]
       refine List.chain'_cons.mpr ⟨by norm_num, List.chain'_cons.mpr
         ⟨by norm_num, List.chain'_singleton _⟩⟩)⟩

end PrincessDaina
